import Mathlib

/-!
# Verification of the AI-Interview-Platform live-interview core

Shallow embedding of the backend components that drive a live interview:

* `backend/services/pcm_buffer.py` — per-(interview, question) PCM chunk buffers;
* `backend/services/streaming_asr.py` — rolling WEBM audio buffer with a byte cap;
* `backend/api/interview_audio.py` — the binary audio ingress endpoint;
* `backend/services/live_signals.py` — live confidence / interrupt advisories;
* `backend/api/ws_interview.py` — next-unanswered-question computation;
* `backend/tasks/score_question.py`, `backend/tasks/live_scoring.py` — score row writes;
* `backend/score_utils.py`, `backend/tasks/score_interview.py` — model-output parsing.

Python byte strings are modelled as `List Nat`, timestamps (`time.time()`) as
integer seconds (`Int`; every threshold in the source is a whole number of
seconds), JSON values as the inductive `PyJson`, and the process-wide dict
registries as explicit state passed through the functions.  Fractional
`overall` scores are stored multiplied by 100 (`overall_centi`): the weight
vectors 0.6/0.3/0.1 make two-decimal rounding exact, so this is lossless.
-/

/-! ## backend/services/pcm_buffer.py -/

/-- `_PCM_BUFFERS`: interview_id → question_id → list of byte chunks.
The nested `defaultdict` is modelled as a total map from the key pair to the
chunk list; a missing key holds `[]` (what the defaultdict would create).
The source also deletes an interview bucket once it becomes empty, which is
unobservable in this representation. -/
def PcmBuffers : Type := String × Int → List (List Nat)

def emptyPcmBuffers : PcmBuffers := fun _ => []

/-- `append_pcm(interview_id, question_id, pcm_bytes)`: empty chunks are
dropped (`if not pcm_bytes: return`); otherwise the chunk is appended to the
list for the key.  No byte cap is applied on this path. -/
def append_pcm (bufs : PcmBuffers) (iid : String) (qid : Int) (chunk : List Nat) :
    PcmBuffers :=
  if chunk.isEmpty then bufs
  else fun k => if k = (iid, qid) then bufs (iid, qid) ++ [chunk] else bufs k

/-- `pop_full_pcm(interview_id, question_id)`: pops the chunk list for the key
(afterwards the key reads as empty again) and returns `b"".join(chunks)`. -/
def pop_full_pcm (bufs : PcmBuffers) (iid : String) (qid : Int) :
    List Nat × PcmBuffers :=
  ((bufs (iid, qid)).flatten,
   fun k => if k = (iid, qid) then [] else bufs k)

/-- Total number of bytes buffered for a key (for stating the cap property). -/
def pcmBufferedBytes (bufs : PcmBuffers) (iid : String) (qid : Int) : Nat :=
  (bufs (iid, qid)).flatten.length

/-! ## backend/services/streaming_asr.py -/

/-- `MAX_BUFFER_BYTES = 20 * 16000 * 2` — "Keep ~20 seconds of audio". -/
def MAX_BUFFER_BYTES : Nat := 20 * 16000 * 2

/-- `STREAM_BUFFERS : Dict[str, bytearray]` (defaultdict of `bytearray`),
modelled as a total map from the string key to a byte list. -/
def StreamBuffers : Type := String → List Nat

def emptyStreamBuffers : StreamBuffers := fun _ => []

/-- `_key(interview_id, question_id) = f"{interview_id}:{question_id}"`. -/
def streamKey (iid : String) (qid : Int) : String :=
  iid ++ ":" ++ toString qid

/-- The rolling-buffer step of `append_audio`: after `buf.extend(chunk)` the
source truncates with `buf[-MAX_BUFFER_BYTES:]` whenever
`len(buf) > MAX_BUFFER_BYTES`; keeping the last `N` bytes of a list of length
`L > N` is `drop (L - N)`. -/
def rollingTail (l : List Nat) : List Nat :=
  if MAX_BUFFER_BYTES < l.length then l.drop (l.length - MAX_BUFFER_BYTES) else l

/-- `append_audio(interview_id, question_id, chunk)`: empty chunks return
`("", False)` without touching the buffer; otherwise the chunk is appended,
the buffer truncated to the rolling tail, and the whole rolling window is
re-transcribed (`transcribe_audio_bytes`, modelled by the opaque argument
`recognize`).  `speech_ended` is always `False` ("Speech end is controlled by
frontend stop").  Returns the new buffer map and the `(partial_text,
speech_ended)` pair of the source. -/
def append_audio (recognize : List Nat → String) (bufs : StreamBuffers)
    (iid : String) (qid : Int) (chunk : List Nat) :
    StreamBuffers × String × Bool :=
  if chunk.isEmpty then (bufs, "", false)
  else
    let key := streamKey iid qid
    let buf := rollingTail (bufs key ++ chunk)
    (fun k => if k = key then buf else bufs k, recognize buf, false)

/-! ## backend/api/interview_audio.py — binary audio ingress -/

/-- Modelled from the spec: `pop_full_audio` is imported by
`backend/api/interview_audio.py` from `backend/services/streaming_asr.py`,
but no definition of it appears anywhere in the repository (only this call
site).  The spec describes the operation as `take(session_id, question_id)`:
"atomically reads and clears the buffer, returning whatever accumulated
(possibly empty)". -/
def pop_full_audio (bufs : StreamBuffers) (iid : String) (qid : Int) :
    List Nat × StreamBuffers :=
  (bufs (streamKey iid qid),
   fun k => if k = streamKey iid qid then [] else bufs k)

/-- The JSON body returned by the `transcribe_audio` endpoint: `partFlag`
models the `"partial"` field; the transcript key is present only on the
final-fragment path. -/
structure TranscribeResponse where
  partFlag : Bool
  question_id : Int
  transcript : Option String
deriving DecidableEq, Repr

/-- `POST /{interview_id}/transcribe_audio` (`transcribe_audio` in
`backend/api/interview_audio.py`), restricted to its buffer/transcript
behaviour: the uploaded chunk is always appended (`append_audio`); a fragment
with `partial=True` returns immediately with no transcript; a final fragment
pops the whole buffer, transcribes it when non-empty (otherwise the
transcript stays `""`), and answers with the transcript.  The persistence,
timeline-logging and broadcast side effects of the endpoint are outside the
buffer state modelled here. -/
def transcribe_audio (recognize : List Nat → String) (bufs : StreamBuffers)
    (iid : String) (qid : Int) (chunk : List Nat) (partFlag : Bool) :
    StreamBuffers × TranscribeResponse :=
  let bufs1 := (append_audio recognize bufs iid qid chunk).1
  if partFlag then
    (bufs1, ⟨true, qid, none⟩)
  else
    let taken := pop_full_audio bufs1 iid qid
    let transcript := if taken.1.isEmpty then "" else recognize taken.1
    (taken.2, ⟨false, qid, some transcript⟩)

/-! ## backend/services/live_signals.py -/

/-- ASCII lowering of one character (`str.lower()` on the ASCII range the
filler list uses). -/
def charLower (c : Char) : Char :=
  if 'A' ≤ c ∧ c ≤ 'Z' then Char.ofNat (c.toNat + 32) else c

/-- Whitespace as recognised by Python `str.split()` (no separator). -/
def isSpaceC (c : Char) : Bool :=
  c = ' ' || c = '\t' || c = '\n' || c = '\r'

/-- Helper for `str.split()`: groups maximal runs of non-whitespace
characters, dropping empty pieces, with `acc` holding the current word
reversed. -/
def splitWordsAux : List Char → List Char → List (List Char)
  | [], acc => if acc.isEmpty then [] else [acc.reverse]
  | c :: cs, acc =>
      if isSpaceC c then
        if acc.isEmpty then splitWordsAux cs [] else acc.reverse :: splitWordsAux cs []
      else splitWordsAux cs (c :: acc)

/-- `text.lower().split()` of the source. -/
def pyLowerWords (s : String) : List (List Char) :=
  splitWordsAux (s.data.map charLower) []

/-- The `FILLERS` set.  (`"i mean"` contains a space and therefore can never
equal a single token produced by `split()`; it is kept to match the source.) -/
def FILLERS : List (List Char) :=
  ["uh".data, "um".data, "like".data, "you".data, "know".data,
   "basically".data, "actually".data, "so".data, "i mean".data, "right".data,
   "well".data, "hmm".data, "ah".data, "er".data]

/-- `sum(1 for w in words if w in FILLERS)`. -/
def countFillers (words : List (List Char)) : Nat :=
  words.countP (fun w => FILLERS.contains w)

/-- One per-(interview, question) entry of `_LIVE_STATE`. -/
structure LiveState where
  word_count : Nat
  filler_count : Nat
  last_text : String
  low_conf_streak : Nat
  started_at : Int
  last_interrupt_at : Int
deriving DecidableEq, Repr

/-- The dict installed by `setdefault` when the key is absent. -/
def initLiveState (now : Int) : LiveState :=
  { word_count := 0, filler_count := 0, last_text := "",
    low_conf_streak := 0, started_at := now, last_interrupt_at := 0 }

/-- The dict returned by `update_live_answer`.  On the early-return paths the
Python dict simply lacks the `interrupt_reason`/`followup` keys; both cases
are modelled as `none`. -/
structure LiveSignal where
  question_id : Int
  confidence : String
  word_count : Nat
  interrupt : Bool
  interrupt_reason : Option String
  followup : Option String
deriving DecidableEq, Repr

def MIN_WORDS_BEFORE_INTERRUPT : Nat := 30

def MIN_SECONDS_BEFORE_INTERRUPT : Int := 5

/-- The state mutations `update_live_answer` performs before any of its
guard returns: `word_count` is overwritten with the current fragment's word
count, `filler_count` accumulates the fragment's fillers, `last_text` is
replaced, and `low_conf_streak` is incremented in the `low` confidence
branch, reset in the `high` branch and left untouched in the `medium`
branch. -/
def liveObserve (st : LiveState) (text : String) : LiveState :=
  let words := pyLowerWords text
  let wc := words.length
  let fc := st.filler_count + countFillers words
  let streak :=
    if wc < 20 then st.low_conf_streak + 1
    else if 8 < fc then st.low_conf_streak
    else 0
  { st with word_count := wc, filler_count := fc, last_text := text,
            low_conf_streak := streak }

/-- The confidence classification of `update_live_answer` (computed on the
same condition chain as the streak update in the source; it is split out here
as both read only the updated word and filler counts): `low` when the
fragment has fewer than 20 words, else `medium` when the accumulated filler
count exceeds 8, else `high`. -/
def liveConfidence (st : LiveState) (text : String) : String :=
  let words := pyLowerWords text
  let wc := words.length
  let fc := st.filler_count + countFillers words
  if wc < 20 then "low"
  else if 8 < fc then "medium"
  else "high"

/-- `update_live_answer(interview_id, question_id, text)` with the global
`_LIVE_STATE` entry passed (and returned) explicitly; `now` is the value of
`time.time()`.  Mirrors the source: the state fields are updated
(`liveObserve`) before any of the guard returns; the three hard guards
(warm-up, minimum words, cool-down) return `interrupt=False`; the rambling
condition, checked second, overwrites the low-confidence interrupt reason;
`last_interrupt_at` is advanced only when an interrupt fires. -/
def update_live_answer (stOpt : Option LiveState) (now : Int) (qid : Int)
    (text : String) : LiveState × LiveSignal :=
  let st := stOpt.getD (initLiveState now)
  let st1 := liveObserve st text
  let confidence := liveConfidence st text
  let wc := st1.word_count
  if now - st1.started_at < MIN_SECONDS_BEFORE_INTERRUPT then
    (st1, ⟨qid, confidence, wc, false, none, none⟩)
  else if wc < MIN_WORDS_BEFORE_INTERRUPT then
    (st1, ⟨qid, confidence, wc, false, none, none⟩)
  else if now - st1.last_interrupt_at < 6 then
    (st1, ⟨qid, confidence, wc, false, none, none⟩)
  else
    let irf : Bool × Option String × Option String :=
      if 150 < wc ∧ confidence ≠ "high" then
        (true, some "rambling", some "Let’s pause there. Can you summarize your main point?")
      else if 4 ≤ st1.low_conf_streak then
        (true, some "low_confidence", some "Can you be more specific or give a concrete example?")
      else (false, none, none)
    let st2 := if irf.1 then { st1 with last_interrupt_at := now } else st1
    (st2, ⟨qid, confidence, wc, irf.1, irf.2.1, irf.2.2⟩)

/-- `liveObserve` reads only the filler count, streak and the fixed fields of
the prior state — never its stored `word_count`. -/
theorem liveObserve_word_count_irrelevant (st : LiveState) (w : Nat)
    (text : String) :
    liveObserve { st with word_count := w } text = liveObserve st text := by
  cases st
  rfl

/-- `liveConfidence` likewise never reads the stored `word_count`. -/
theorem liveConfidence_word_count_irrelevant (st : LiveState) (w : Nat)
    (text : String) :
    liveConfidence { st with word_count := w } text = liveConfidence st text := by
  cases st
  rfl

/-- Projections of the observed state. -/
theorem liveObserve_word_count (st : LiveState) (text : String) :
    (liveObserve st text).word_count = (pyLowerWords text).length := rfl

theorem liveObserve_filler_count (st : LiveState) (text : String) :
    (liveObserve st text).filler_count =
      st.filler_count + countFillers (pyLowerWords text) := rfl

/-! ## backend/api/ws_interview.py — get_next_question -/

/-- One row of `interview_questions` (the columns `get_next_question` reads). -/
structure IQuestion where
  id : Int
  interview_id : String
  question_text : String
deriving DecidableEq, Repr

/-- One row of `interview_turns` (the columns `get_next_question` reads);
`question_id` is nullable. -/
structure ITurn where
  interview_id : String
  question_id : Option Int
  speaker : String
  transcript : String
deriving DecidableEq, Repr

/-- `ORDER BY id ASC` on question rows. -/
def qIdLe (a b : IQuestion) : Prop := a.id ≤ b.id

instance : DecidableRel qIdLe := fun a b => inferInstanceAs (Decidable (a.id ≤ b.id))

instance : IsTotal IQuestion qIdLe := ⟨fun a b => Int.le_total a.id b.id⟩

instance : IsTrans IQuestion qIdLe := ⟨fun _ _ _ => Int.le_trans⟩

/-- The answered-question test of `get_next_question`: the `SELECT DISTINCT
question_id FROM interview_turns WHERE interview_id = :iid AND speaker =
'candidate' AND question_id IS NOT NULL` query followed by the
`r.id not in answered_ids` membership test, fused into one predicate: a
question id is answered when at least one candidate turn of the interview
references it (a turn matching `some qid` is automatically non-null). -/
def isAnsweredB (turns : List ITurn) (iid : String) (qid : Int) : Bool :=
  turns.any fun t =>
    t.interview_id == iid && t.speaker == "candidate" && t.question_id == some qid

/-- `get_next_question(db, interview_id)`: fetches the interview's questions
ordered by id, and returns the first whose id no candidate turn references,
as the `{"id": ..., "question_text": ...}` pair — or `none` when the question
list is empty or every question is answered (the source's early `return None`
on an empty row set coincides with `find?` on `[]`). -/
def get_next_question (questions : List IQuestion) (turns : List ITurn)
    (iid : String) : Option (Int × String) :=
  let rows := List.insertionSort qIdLe (questions.filter (fun q => q.interview_id == iid))
  (rows.find? (fun q => !(isAnsweredB turns iid q.id))).map
    (fun q => (q.id, q.question_text))

/-! ## Score rows: backend/tasks/score_question.py and backend/tasks/live_scoring.py -/

/-- One row of the `interview_scores` table (the columns both writers touch);
`overall_centi` is `overall_score` multiplied by 100. -/
structure ScoreRow where
  interview_id : String
  question_id : Int
  technical_score : Int
  communication_score : Int
  completeness_score : Int
  overall_centi : Int
  ai_feedback : String
  llm_raw : String
deriving DecidableEq, Repr

/-- Row matches the `(interview_id, question_id)` key. -/
def sameKey (r : ScoreRow) (iid : String) (qid : Int) : Bool :=
  r.interview_id == iid && r.question_id == qid

/-- The `INSERT ... ON CONFLICT (interview_id, question_id) DO UPDATE SET ...`
statement of `tasks/score_question.py`: when a row with the key already
exists its non-key columns are replaced by the excluded row's values,
otherwise the row is appended. -/
def upsert_score (table : List ScoreRow) (row : ScoreRow) : List ScoreRow :=
  if table.any (fun r => sameKey r row.interview_id row.question_id) then
    table.map (fun r =>
      if sameKey r row.interview_id row.question_id then
        { r with technical_score := row.technical_score,
                 communication_score := row.communication_score,
                 completeness_score := row.completeness_score,
                 overall_centi := row.overall_centi,
                 ai_feedback := row.ai_feedback,
                 llm_raw := row.llm_raw }
      else r)
  else table ++ [row]

/-- The plain `INSERT INTO interview_scores ... VALUES ...` of
`tasks/live_scoring.py` (`score_turn`, step 4 — "simple version: one row per
scoring"): no conflict clause, a new row is always appended. -/
def insert_score (table : List ScoreRow) (row : ScoreRow) : List ScoreRow :=
  table ++ [row]

/-- `run_live_question_scoring` of `backend/services/live_scoring.py` returns
a fixed dummy result; these are its score fields (technical 3, communication
4, completeness 3, overall 3.5 → 350 centi) together with the feedback and
raw strings `score_turn` stores. -/
def score_turn_row (iid : String) (qid : Int) : ScoreRow :=
  { interview_id := iid, question_id := qid,
    technical_score := 3, communication_score := 4, completeness_score := 3,
    overall_centi := 350,
    ai_feedback := "Good explanation, could include more detail.",
    llm_raw := "{... raw ...}" }

/-- The `interview_scores` write performed by one run of `score_turn` for a
candidate turn of question `qid` (the audit-table insert touches a different
table and is not part of this state). -/
def score_turn_write (table : List ScoreRow) (iid : String) (qid : Int) :
    List ScoreRow :=
  insert_score table (score_turn_row iid qid)

/-- Number of `interview_scores` rows carrying the `(interview_id,
question_id)` key. -/
def countKey (table : List ScoreRow) (iid : String) (qid : Int) : Nat :=
  (table.filter (fun r => sameKey r iid qid)).length

/-! ## Response parsing: backend/tasks/score_interview.py and backend/score_utils.py -/

/-- Python values produced by `json.loads` (numbers restricted to the
integers the grading prompts ask for). -/
inductive PyJson where
  | null : PyJson
  | bool : Bool → PyJson
  | num : Int → PyJson
  | str : String → PyJson
  | arr : List PyJson → PyJson
  | obj : List (String × PyJson) → PyJson

/-- `body.get(key)`: `none` when the key is absent. -/
def jGet (fields : List (String × PyJson)) (k : String) : Option PyJson :=
  (fields.find? (fun p => p.1 == k)).map Prod.snd

/-- Python truthiness of a JSON value (`or` chains short-circuit on it). -/
def pyTruthy : PyJson → Bool
  | .null => false
  | .bool b => b
  | .num n => n != 0
  | .str s => !s.isEmpty
  | .arr l => !l.isEmpty
  | .obj l => !l.isEmpty

/-- Python `a or b` over optional JSON values: a present truthy value wins,
otherwise the right operand. -/
def pyOr (a b : Option PyJson) : Option PyJson :=
  match a with
  | some v => if pyTruthy v then some v else b
  | none => b

/-- `any(k in body for k in ("technical", "communication", "completeness"))`. -/
def hasScoreKey (fields : List (String × PyJson)) : Bool :=
  (jGet fields "technical").isSome || (jGet fields "communication").isSome ||
    (jGet fields "completeness").isSome

/-- The fields of a JSON object (`[]` for any other value). -/
def objFields : PyJson → List (String × PyJson)
  | .obj f => f
  | _ => []

/-- The `AI_PROVIDER == "ollama"` branch of `_llm_json`
(`backend/tasks/score_interview.py`, after `_ollama_call_ndjson` produced
`{"raw": raw_text, "body": body}` with `body = none` when no strategy inside
the caller could parse the response body).  `parse` stands for `json.loads`
(`none` = raised) and `extract` for the
`re.search(r"(\{[\s\S]*\}|\[[\s\S]*\])", ...)` blob extraction.  Mirrors the
source branch by branch, including: a dict body with a score key is returned
as is; a string `response`/`text` envelope field is re-parsed, accepting only
dict results (a successfully parsed non-dict falls back to the outer body); a
string body is re-parsed accepting any value; and everything else degrades to
`{"summary": raw_text}`. -/
def llm_json_ollama (parse : String → Option PyJson)
    (extract : String → Option String) (raw_text : String)
    (body : Option PyJson) : PyJson × String :=
  match body with
  | some (.obj fields) =>
      if hasScoreKey fields then (.obj fields, raw_text)
      else
        match pyOr (jGet fields "response") (jGet fields "text") with
        | some (.str resp) =>
            (match parse resp with
             | some (.obj f2) => (.obj f2, resp)
             | some _ => (.obj fields, raw_text)
             | none =>
                 match extract resp with
                 | some blob =>
                     match parse blob with
                     | some (.obj f3) => (.obj f3, resp)
                     | _ => (.obj fields, raw_text)
                 | none => (.obj fields, raw_text))
        | _ => (.obj fields, raw_text)
  | some (.str s) =>
      (match parse s with
       | some parsed => (parsed, s)
       | none =>
           match extract s with
           | some blob =>
               match parse blob with
               | some parsed2 => (parsed2, s)
               | none => (.obj [("summary", .str s)], s)
           | none => (.obj [("summary", .str s)], s))
  | _ => (.obj [("summary", .str raw_text)], raw_text)

/-- Python `int(...)` on a decimal digit string (with optional sign), over a
character list; `none` models a raised `ValueError`. -/
def digitsToInt : List Char → Option Int
  | [] => none
  | cs =>
      cs.foldl
        (fun acc? c => acc?.bind (fun acc =>
          if c.isDigit then some (acc * 10 + ((c.toNat : Int) - 48)) else none))
        (some 0)

/-- Python `int(...)` on a string, handling a single leading minus sign. -/
def pyStrToInt (s : String) : Option Int :=
  match s.data with
  | '-' :: rest => (digitsToInt rest).map Neg.neg
  | cs => digitsToInt cs

/-- Python `int(v)` on a JSON value; `none` models a raised exception
(`int(None)`, `int` of a dict/list, `int` of a non-numeric string). -/
def pyInt : PyJson → Option Int
  | .num n => some n
  | .str s => pyStrToInt s
  | .bool b => some (if b then 1 else 0)
  | _ => none

/-- `_safe_int(x, default=0)` of `backend/tasks/score_interview.py`:
`int(x)`, falling back to the default on any exception (including the
missing-key case, where `.get` handed it `None`).  No clamping. -/
def _safe_int (x : Option PyJson) (default : Int) : Int :=
  match x with
  | none => default
  | some v => (pyInt v).getD default

/-- The `(comm, tech, comp)` extraction of the voice branch of
`score_question` (`backend/tasks/score_question.py` lines 71–73): each field
of the parsed feedback object goes through `_safe_int(..., 0)`; nothing is
clamped afterwards. -/
def score_question_voice_scores (fb : List (String × PyJson)) :
    Int × Int × Int :=
  (_safe_int (jGet fb "communication") 0,
   _safe_int (jGet fb "technical") 0,
   _safe_int (jGet fb "completeness") 0)

/-- max(0, min(100, x)) — the clamping in `grade_transcript_with_llm`. -/
def clamp100 (n : Int) : Int := max 0 (min 100 n)

/-- Result shape of `grade_transcript_with_llm`; `overall_centi` is the
weighted `overall` multiplied by 100 (weights 0.6/0.3/0.1 make the
two-decimal rounding exact). -/
structure GradeResult where
  technical : Int
  communication : Int
  completeness : Int
  overall_centi : Int
  feedback : String
deriving DecidableEq, Repr

/-- The fallback returned when `json.loads(resp)` fails in
`grade_transcript_with_llm`. -/
def neutralGrade : GradeResult :=
  { technical := 50, communication := 50, completeness := 50,
    overall_centi := 5000, feedback := "Unable to parse model output" }

/-- The fallback of the outer `except` of `grade_transcript_with_llm`
(reached e.g. when `int()` raises on a non-numeric field or `.get` is called
on a non-dict parse result). -/
def llmFailedGrade : GradeResult :=
  { technical := 50, communication := 50, completeness := 50,
    overall_centi := 5000, feedback := "LLM scoring failed" }

/-- `score_obj.get("feedback", "")`, kept only when it is a string (the
claims under verification never inspect a non-string feedback value). -/
def feedbackOf (fields : List (String × PyJson)) : String :=
  match jGet fields "feedback" with
  | some (.str s) => s
  | _ => ""

/-- `int(score_obj.get(k, 0))` as an optional integer: a missing key coerces
to 0, a present value through Python `int(...)` (`none` = raised). -/
def getIntField (fields : List (String × PyJson)) (k : String) : Option Int :=
  match jGet fields k with
  | none => some 0
  | some v => pyInt v

/-- The parsing/normalisation tail of `grade_transcript_with_llm`
(`backend/score_utils.py` lines 88–109), given the extracted response text
`resp`: `json.loads(resp)` failing returns the 50/50/50 neutral object; a
successful parse has each score field read with `.get(key, 0)`, coerced by
`int()` (an exception anywhere lands in the outer `except`, modelled by
`llmFailedGrade`), clamped to [0, 100], and combined with the 0.6/0.3/0.1
weight vector. -/
def grade_parse_resp (parse : String → Option PyJson) (resp : String) :
    GradeResult :=
  match parse resp with
  | none => neutralGrade
  | some (.obj fields) =>
      match getIntField fields "technical", getIntField fields "communication",
          getIntField fields "completeness" with
      | some t, some c, some p =>
          let tech := clamp100 t
          let comm := clamp100 c
          let comp := clamp100 p
          { technical := tech, communication := comm, completeness := comp,
            overall_centi := 60 * tech + 30 * comm + 10 * comp,
            feedback := feedbackOf fields }
      | _, _, _ => llmFailedGrade
  | some _ => llmFailedGrade

/-! ## Theorems: audio buffers (C3, C5, C8) -/

/-- Helper: appending a non-empty chunk to an empty key buffers exactly that
chunk. -/
theorem append_pcm_empty_key (iid : String) (qid : Int) (chunk : List Nat)
    (h : chunk ≠ []) :
    (append_pcm emptyPcmBuffers iid qid chunk) (iid, qid) = [chunk] := by
  rw [append_pcm, if_neg]
  · simp [emptyPcmBuffers]
  · simpa [List.isEmpty_iff] using h

/-- C8: for a key whose buffer is empty, `append(a); append(b); take()`
returns `a ++ b` (chunks concatenated in arrival order), and a second `take()`
on the same key immediately afterwards returns the empty byte string. -/
theorem pcm_append_append_take (bufs : PcmBuffers) (iid : String) (qid : Int)
    (a b : List Nat) (h : bufs (iid, qid) = []) :
    (pop_full_pcm (append_pcm (append_pcm bufs iid qid a) iid qid b) iid qid).1 =
        a ++ b ∧
    (pop_full_pcm
        (pop_full_pcm (append_pcm (append_pcm bufs iid qid a) iid qid b) iid qid).2
        iid qid).1 = [] := by
  constructor
  · by_cases ha : a = [] <;> by_cases hb : b = [] <;>
      simp [append_pcm, pop_full_pcm, ha, hb, h, List.isEmpty_iff]
  · simp [pop_full_pcm]

/-- C8 witness: concrete run on an empty store. -/
theorem pcm_append_append_take_witness :
    emptyPcmBuffers ("i", 1) = [] ∧
    ((pop_full_pcm (append_pcm (append_pcm emptyPcmBuffers "i" 1 [1, 2]) "i" 1 [3])
        "i" 1).1 = [1, 2] ++ [3] ∧
     (pop_full_pcm
        (pop_full_pcm (append_pcm (append_pcm emptyPcmBuffers "i" 1 [1, 2]) "i" 1 [3])
            "i" 1).2 "i" 1).1 = []) :=
  ⟨rfl, pcm_append_append_take emptyPcmBuffers "i" 1 [1, 2] [3] rfl⟩

/-- C5 counterexample: the PCM path of the Audio Stream Assembler
(`append_pcm`) applies no byte cap at all: appending a single chunk of
`MAX_BUFFER_BYTES + 1` bytes leaves a buffer strictly larger than the cap,
with no truncation. -/
theorem append_pcm_uncapped_counterexample :
    pcmBufferedBytes
        (append_pcm emptyPcmBuffers "i" 1 (List.replicate (MAX_BUFFER_BYTES + 1) 0))
        "i" 1 = MAX_BUFFER_BYTES + 1 ∧
    MAX_BUFFER_BYTES < MAX_BUFFER_BYTES + 1 := by
  refine ⟨?_, Nat.lt_succ_self _⟩
  have h := append_pcm_empty_key "i" 1 (List.replicate (MAX_BUFFER_BYTES + 1) 0)
    (by simp)
  simp [pcmBufferedBytes, h]

/-- C5 (amended): on the WEBM streaming path (`append_audio`), appending a
non-empty chunk always leaves the key's buffer at most `MAX_BUFFER_BYTES`
long, the new buffer is the rolling tail of the old buffer extended by the
chunk, and that rolling tail is a suffix of the extended buffer (the most
recent bytes are the ones kept). -/
theorem append_audio_cap (recognize : List Nat → String) (bufs : StreamBuffers)
    (iid : String) (qid : Int) (chunk : List Nat) (h : chunk ≠ []) :
    ((append_audio recognize bufs iid qid chunk).1 (streamKey iid qid)).length ≤
        MAX_BUFFER_BYTES ∧
    (append_audio recognize bufs iid qid chunk).1 (streamKey iid qid) =
        rollingTail (bufs (streamKey iid qid) ++ chunk) ∧
    rollingTail (bufs (streamKey iid qid) ++ chunk) <:+
        bufs (streamKey iid qid) ++ chunk := by
  have hne : chunk.isEmpty = false := by simpa [List.isEmpty_iff] using h
  have hbuf : (append_audio recognize bufs iid qid chunk).1 (streamKey iid qid) =
      rollingTail (bufs (streamKey iid qid) ++ chunk) := by
    simp [append_audio, hne]
  refine ⟨?_, hbuf, ?_⟩
  · rw [hbuf, rollingTail]
    split
    · rename_i hlt
      rw [List.length_drop]
      omega
    · rename_i hnlt
      omega
  · rw [rollingTail]
    split
    · exact List.drop_suffix _ _
    · exact List.suffix_refl _

/-- C5 witness: a one-byte chunk appended to an empty store. -/
theorem append_audio_cap_witness :
    ([0] : List Nat) ≠ [] ∧
    (((append_audio (fun _ => "") emptyStreamBuffers "i" 1 [0]).1
        (streamKey "i" 1)).length ≤ MAX_BUFFER_BYTES ∧
     (append_audio (fun _ => "") emptyStreamBuffers "i" 1 [0]).1 (streamKey "i" 1) =
        rollingTail (emptyStreamBuffers (streamKey "i" 1) ++ [0]) ∧
     rollingTail (emptyStreamBuffers (streamKey "i" 1) ++ [0]) <:+
        emptyStreamBuffers (streamKey "i" 1) ++ [0]) :=
  ⟨by decide, append_audio_cap (fun _ => "") emptyStreamBuffers "i" 1 [0] (by decide)⟩

/-- C3: on the binary ingress path, the uploaded chunk is merged into the
key's buffer regardless of the partial/final marker (an empty upload leaves
the buffer content unchanged, which is the same as appending nothing); a
fragment with `partial=True` answers without a transcript and leaves the
accumulated buffer in place (no take), while a fragment with `partial=False`
takes the accumulated buffer — clearing the key — and answers with the
recognition of everything accumulated (the empty transcript when nothing
accumulated).  Other keys are never touched. -/
theorem transcribe_audio_routing (recognize : List Nat → String)
    (bufs : StreamBuffers) (iid : String) (qid : Int) (chunk : List Nat) :
    ((transcribe_audio recognize bufs iid qid chunk true).1 (streamKey iid qid) =
        (if chunk.isEmpty then bufs (streamKey iid qid)
         else rollingTail (bufs (streamKey iid qid) ++ chunk)) ∧
     (transcribe_audio recognize bufs iid qid chunk true).2.transcript = none) ∧
    ((transcribe_audio recognize bufs iid qid chunk false).1 (streamKey iid qid) =
        [] ∧
     (transcribe_audio recognize bufs iid qid chunk false).2.transcript =
        some (if ((if chunk.isEmpty then bufs (streamKey iid qid)
                   else rollingTail (bufs (streamKey iid qid) ++ chunk))).isEmpty
              then ""
              else recognize
                (if chunk.isEmpty then bufs (streamKey iid qid)
                 else rollingTail (bufs (streamKey iid qid) ++ chunk)))) ∧
    (∀ k, k ≠ streamKey iid qid →
      (transcribe_audio recognize bufs iid qid chunk true).1 k = bufs k ∧
      (transcribe_audio recognize bufs iid qid chunk false).1 k = bufs k) := by
  by_cases hc : chunk.isEmpty <;>
    simp [transcribe_audio, append_audio, pop_full_audio, hc] <;>
    intro k hk <;> simp [hk]

/-- C3 witness: a key other than the one receiving audio is untouched by
both a partial and a final fragment. -/
theorem transcribe_audio_routing_witness :
    ("other" : String) ≠ streamKey "i" 1 ∧
    (transcribe_audio (fun _ => "t") emptyStreamBuffers "i" 1 [7] true).1
        "other" = emptyStreamBuffers "other" ∧
    (transcribe_audio (fun _ => "t") emptyStreamBuffers "i" 1 [7] false).1
        "other" = emptyStreamBuffers "other" :=
  ⟨by decide,
   ((transcribe_audio_routing (fun _ => "t") emptyStreamBuffers "i" 1 [7]).2.2
     "other" (by decide)).1,
   ((transcribe_audio_routing (fun _ => "t") emptyStreamBuffers "i" 1 [7]).2.2
     "other" (by decide)).2⟩

/-! ## Theorems: live signal analyzer (C6, C7, C10) -/

/-- Streak helper: a `low` observation increments the streak. -/
theorem liveObserve_streak_low (st : LiveState) (text : String)
    (h : liveConfidence st text = "low") :
    (liveObserve st text).low_conf_streak = st.low_conf_streak + 1 := by
  dsimp only [liveObserve, liveConfidence] at h ⊢
  split_ifs at h ⊢ <;> first | rfl | exact absurd h (by decide)

/-- Streak helper: a `high` observation resets the streak. -/
theorem liveObserve_streak_high (st : LiveState) (text : String)
    (h : liveConfidence st text = "high") :
    (liveObserve st text).low_conf_streak = 0 := by
  dsimp only [liveObserve, liveConfidence] at h ⊢
  split_ifs at h ⊢ <;> first | rfl | exact absurd h (by decide)

/-- Streak helper: a `medium` observation leaves the streak unchanged. -/
theorem liveObserve_streak_medium (st : LiveState) (text : String)
    (h : liveConfidence st text = "medium") :
    (liveObserve st text).low_conf_streak = st.low_conf_streak := by
  dsimp only [liveObserve, liveConfidence] at h ⊢
  split_ifs at h ⊢ <;> first | rfl | exact absurd h (by decide)

/-- C6 counterexample: an observation classified as `medium` confidence does
NOT reset the low-confidence streak.  Starting from a state with streak 3 and
an accumulated filler count of 9, a 20-word filler-free fragment is classified
`medium` (word count ≥ 20, filler count > 8), yet the stored streak stays 3
instead of being reset to 0. -/
theorem live_medium_keeps_streak_counterexample :
    (update_live_answer
        (some { word_count := 0, filler_count := 9, last_text := "",
                low_conf_streak := 3, started_at := 0, last_interrupt_at := 0 })
        0 1 "x x x x x x x x x x x x x x x x x x x x").2.confidence = "medium" ∧
    (update_live_answer
        (some { word_count := 0, filler_count := 9, last_text := "",
                low_conf_streak := 3, started_at := 0, last_interrupt_at := 0 })
        0 1 "x x x x x x x x x x x x x x x x x x x x").1.low_conf_streak = 3 ∧
    (3 : Nat) ≠ 0 := by
  refine ⟨?_, ?_, by decide⟩ <;> decide

/-- C6 (amended): each observation classified `low` increments the
low-confidence streak, an observation classified `high` resets it to 0, and
an observation classified `medium` leaves it unchanged (it is not reset, the
source only resets in the `high` branch). -/
theorem live_streak_update (st : LiveState) (now : Int) (qid : Int)
    (text : String) :
    ((update_live_answer (some st) now qid text).2.confidence = "low" →
      (update_live_answer (some st) now qid text).1.low_conf_streak =
        st.low_conf_streak + 1) ∧
    ((update_live_answer (some st) now qid text).2.confidence = "high" →
      (update_live_answer (some st) now qid text).1.low_conf_streak = 0) ∧
    ((update_live_answer (some st) now qid text).2.confidence = "medium" →
      (update_live_answer (some st) now qid text).1.low_conf_streak =
        st.low_conf_streak) := by
  dsimp only [update_live_answer]
  split_ifs <;>
    refine ⟨fun h1 => ?_, fun h2 => ?_, fun h3 => ?_⟩ <;>
    simp_all [liveObserve_streak_low, liveObserve_streak_high,
      liveObserve_streak_medium]

/-- C6 witness: a two-word fragment is `low`, the streak steps from 1 to 2. -/
theorem live_streak_update_witness :
    (update_live_answer
        (some { word_count := 5, filler_count := 0, last_text := "",
                low_conf_streak := 1, started_at := 0, last_interrupt_at := 0 })
        0 1 "hi there").2.confidence = "low" ∧
    (update_live_answer
        (some { word_count := 5, filler_count := 0, last_text := "",
                low_conf_streak := 1, started_at := 0, last_interrupt_at := 0 })
        0 1 "hi there").1.low_conf_streak = 1 + 1 :=
  ⟨by decide,
   (live_streak_update
      { word_count := 5, filler_count := 0, last_text := "",
        low_conf_streak := 1, started_at := 0, last_interrupt_at := 0 }
      0 1 "hi there").1 (by decide)⟩

/-- C7: whenever the observed word count of the current fragment is below the
minimum-words gate (`MIN_WORDS_BEFORE_INTERRUPT = 30`), `update_live_answer`
returns `interrupt = False`, whatever the prior state (filler density,
streak), the wall-clock time, and the elapsed time: either the warm-up guard
or the minimum-words guard fires first. -/
theorem live_min_words_no_interrupt (stOpt : Option LiveState) (now : Int)
    (qid : Int) (text : String)
    (h : (pyLowerWords text).length < MIN_WORDS_BEFORE_INTERRUPT) :
    (update_live_answer stOpt now qid text).2.interrupt = false := by
  dsimp only [update_live_answer]
  simp only [liveObserve_word_count]
  split_ifs <;> rfl

/-- C7 witness: a short fragment on a mature, filler-heavy state with a large
streak still yields `interrupt = false`. -/
theorem live_min_words_no_interrupt_witness :
    (pyLowerWords "um uh so basically").length < MIN_WORDS_BEFORE_INTERRUPT ∧
    (update_live_answer
        (some { word_count := 40, filler_count := 50, last_text := "",
                low_conf_streak := 9, started_at := 0, last_interrupt_at := -100 })
        100 1 "um uh so basically").2.interrupt = false :=
  ⟨by decide,
   live_min_words_no_interrupt
     (some { word_count := 40, filler_count := 50, last_text := "",
             low_conf_streak := 9, started_at := 0, last_interrupt_at := -100 })
     100 1 "um uh so basically" (by decide)⟩

/-- C10: the stored and the returned `word_count` are overwritten on every
call with the word count of that call's text alone, while `filler_count`
accumulates on top of the prior state; consequently the whole result of
`update_live_answer` — the minimum-words interrupt gate included — is
independent of the word count stored by earlier fragments. -/
theorem live_word_count_overwrite (st : LiveState) (now : Int) (qid : Int)
    (text : String) :
    (update_live_answer (some st) now qid text).1.word_count =
        (pyLowerWords text).length ∧
    (update_live_answer (some st) now qid text).2.word_count =
        (pyLowerWords text).length ∧
    (update_live_answer (some st) now qid text).1.filler_count =
        st.filler_count + countFillers (pyLowerWords text) ∧
    (∀ w, update_live_answer (some { st with word_count := w }) now qid text =
        update_live_answer (some st) now qid text) := by
  refine ⟨?_, ?_, ?_, ?_⟩
  · dsimp only [update_live_answer, Option.getD]
    split_ifs <;> simp [liveObserve_word_count]
  · dsimp only [update_live_answer, Option.getD]
    split_ifs <;> simp [liveObserve_word_count]
  · dsimp only [update_live_answer, Option.getD]
    split_ifs <;> simp [liveObserve_filler_count]
  · intro w
    simp only [update_live_answer, Option.getD,
      liveObserve_word_count_irrelevant, liveConfidence_word_count_irrelevant]

/-! ## Theorems: next unanswered question (C1) -/

/-- Helper: in a list that is pairwise sorted by ascending id, every member
with an id strictly below the id of the element `find?` returns fails the
predicate (it sits strictly earlier in the list). -/
theorem find?_sorted_earlier {p : IQuestion → Bool} :
    ∀ (l : List IQuestion), List.Pairwise qIdLe l →
      ∀ q, l.find? p = some q → ∀ q1 ∈ l, q1.id < q.id → p q1 = false := by
  intro l
  induction l with
  | nil =>
      intro _ q hf
      simp at hf
  | cons x xs ih =>
      intro hp q hf q1 hq1 hlt
      obtain ⟨hx, hxs⟩ := List.pairwise_cons.mp hp
      rw [List.find?_cons] at hf
      cases hpx : p x with
      | true =>
          rw [hpx] at hf
          have hxq : x = q := by simpa using hf
          subst hxq
          rcases List.mem_cons.mp hq1 with h1 | hmem
          · subst h1
            exact absurd hlt (lt_irrefl _)
          · have hle : x.id ≤ q1.id := hx q1 hmem
            omega
      | false =>
          rw [hpx] at hf
          rcases List.mem_cons.mp hq1 with rfl | hmem
          · exact hpx
          · exact ih hxs q hf q1 hmem hlt

/-- C1: `get_next_question` is a pure function of the persisted question and
turn rows, and it returns exactly the first question of the interview in
ascending-id (creation) order that no candidate turn references: a returned
`(id, text)` pair belongs to an unanswered question of the interview all of
whose id-predecessors within the interview are answered, and a `none` result
means every question of the interview is answered. -/
theorem get_next_question_correct (qs : List IQuestion) (ts : List ITurn)
    (iid : String) :
    (∀ qid qtext, get_next_question qs ts iid = some (qid, qtext) →
        (∃ q ∈ qs, q.interview_id = iid ∧ q.id = qid ∧ q.question_text = qtext ∧
          isAnsweredB ts iid qid = false) ∧
        (∀ q1 ∈ qs, q1.interview_id = iid → q1.id < qid →
          isAnsweredB ts iid q1.id = true)) ∧
    (get_next_question qs ts iid = none →
        ∀ q1 ∈ qs, q1.interview_id = iid → isAnsweredB ts iid q1.id = true) := by
  have hmem : ∀ q : IQuestion,
      q ∈ List.insertionSort qIdLe (qs.filter (fun q => q.interview_id == iid)) ↔
        q ∈ qs ∧ q.interview_id = iid := by
    intro q
    rw [List.mem_insertionSort, List.mem_filter]
    simp
  have hsorted :
      List.Pairwise qIdLe
        (List.insertionSort qIdLe (qs.filter (fun q => q.interview_id == iid))) :=
    List.sorted_insertionSort qIdLe _
  constructor
  · intro qid qtext h
    rw [get_next_question] at h
    obtain ⟨q, hfind, hpair⟩ := Option.map_eq_some'.mp h
    have hqid : q.id = qid := congrArg Prod.fst hpair
    have hqtext : q.question_text = qtext := congrArg Prod.snd hpair
    have hq : q ∈ qs ∧ q.interview_id = iid :=
      (hmem q).mp (List.mem_of_find?_eq_some hfind)
    have hp := List.find?_some hfind
    refine ⟨⟨q, hq.1, hq.2, hqid, hqtext, by rw [← hqid]; simpa using hp⟩, ?_⟩
    intro q1 hq1 hiid1 hlt
    have hq1mem : q1 ∈ List.insertionSort qIdLe
        (qs.filter (fun q => q.interview_id == iid)) :=
      (hmem q1).mpr ⟨hq1, hiid1⟩
    have := find?_sorted_earlier _ hsorted q hfind q1 hq1mem (hqid ▸ hlt)
    simpa using this
  · intro h q1 hq1 hiid1
    rw [get_next_question, Option.map_eq_none'] at h
    have hq1mem : q1 ∈ List.insertionSort qIdLe
        (qs.filter (fun q => q.interview_id == iid)) :=
      (hmem q1).mpr ⟨hq1, hiid1⟩
    have := List.find?_eq_none.mp h q1 hq1mem
    simpa using this

/-- C1 witness: two questions (inserted out of id order), the first already
answered by a candidate turn; the function returns question 2 and the
theorem's consequences evaluate on it. -/
theorem get_next_question_correct_witness :
    isAnsweredB [⟨"i", some 1, "candidate", "ans"⟩] "i" 1 = true :=
  ((get_next_question_correct
      [⟨2, "i", "t2"⟩, ⟨1, "i", "t1"⟩]
      [⟨"i", some 1, "candidate", "ans"⟩] "i").1 2 "t2" (by decide)).2
    ⟨1, "i", "t1"⟩ (by decide) (by decide) (by decide)

/-! ## Theorems: score-row writes (C2) -/

/-- C2 counterexample: dispatching the live scoring task (`score_turn`, the
write actually triggered by the websocket handler for a finalized answer)
twice for the same (session, question) key leaves two `interview_scores`
rows for that key, not one — the plain INSERT duplicates instead of
overwriting. -/
theorem score_turn_duplicates_counterexample :
    countKey (score_turn_write (score_turn_write [] "i" 1) "i" 1) "i" 1 = 2 ∧
    (2 : Nat) ≠ 1 := by
  constructor
  · decide
  · decide

/-- Helper: the conflict update preserves the row key. -/
theorem sameKey_upsert_update (r w : ScoreRow) (iid : String) (qid : Int) :
    sameKey
      { r with technical_score := w.technical_score,
               communication_score := w.communication_score,
               completeness_score := w.completeness_score,
               overall_centi := w.overall_centi,
               ai_feedback := w.ai_feedback,
               llm_raw := w.llm_raw } iid qid = sameKey r iid qid := rfl

/-- Helper: one upsert leaves exactly the incoming row under its key,
provided the table held at most one row for that key before. -/
theorem upsert_filter_eq (w : ScoreRow) (iid : String) (qid : Int)
    (h1 : w.interview_id = iid) (h2 : w.question_id = qid)
    (t : List ScoreRow) (hc : countKey t iid qid ≤ 1) :
    (upsert_score t w).filter (fun r => sameKey r iid qid) = [w] := by
  have hw : sameKey w iid qid = true := by simp [sameKey, h1, h2]
  rw [upsert_score, h1, h2]
  by_cases hany : t.any (fun r => sameKey r iid qid)
  · rw [if_pos hany]
    obtain ⟨r1, hr1, hpr1⟩ := List.any_eq_true.mp hany
    have hone : 0 < (t.filter (fun r => sameKey r iid qid)).length :=
      List.length_pos.mpr (List.ne_nil_of_mem (List.mem_filter.mpr ⟨hr1, hpr1⟩))
    have hlen : (t.filter (fun r => sameKey r iid qid)).length = 1 := by
      rw [countKey] at hc
      omega
    obtain ⟨r0, hfil⟩ := List.length_eq_one.mp hlen
    have hr0mem : r0 ∈ t.filter (fun r => sameKey r iid qid) := by
      rw [hfil]
      exact List.mem_singleton_self r0
    have hr0key : sameKey r0 iid qid = true := (List.mem_filter.mp hr0mem).2
    have hkey2 : r0.interview_id = iid ∧ r0.question_id = qid := by
      simpa [sameKey] using hr0key
    have hcomp :
        ((fun r => sameKey r iid qid) ∘
          (fun r => if sameKey r iid qid then
            { r with technical_score := w.technical_score,
                     communication_score := w.communication_score,
                     completeness_score := w.completeness_score,
                     overall_centi := w.overall_centi,
                     ai_feedback := w.ai_feedback,
                     llm_raw := w.llm_raw } else r)) =
          (fun r => sameKey r iid qid) := by
      funext r
      by_cases hr : sameKey r iid qid = true <;>
        simp [Function.comp, hr, sameKey_upsert_update]
    rw [List.filter_map, hcomp, hfil]
    have hupd :
        (if sameKey r0 iid qid then
          { r0 with technical_score := w.technical_score,
                    communication_score := w.communication_score,
                    completeness_score := w.completeness_score,
                    overall_centi := w.overall_centi,
                    ai_feedback := w.ai_feedback,
                    llm_raw := w.llm_raw } else r0) = w := by
      rw [if_pos hr0key]
      cases r0
      cases w
      simp only [ScoreRow.mk.injEq]
      simp_all
    simp [hupd]
  · rw [if_neg hany]
    rw [List.filter_append]
    have hnil : t.filter (fun r => sameKey r iid qid) = [] := by
      rw [List.filter_eq_nil_iff]
      intro r hr
      have := List.any_eq_false.mp (by simpa using hany) r hr
      simpa using this
    simp [hnil, hw]

/-- C2 (amended): along the `score_question` path the write is an upsert, so
dispatching it any number N ≥ 1 of times for the same (session, question) key
— starting from a table holding at most one row for that key — leaves exactly
one `interview_scores` row for the key, and that row is the most recent
write; the live `score_turn` path, by contrast, issues a plain INSERT and
appends one new row per dispatch (see the counterexample). -/
theorem upsert_rescoring_single_row (table : List ScoreRow) (iid : String)
    (qid : Int) (ws : List ScoreRow) (hne : ws ≠ [])
    (hkeys : ∀ w ∈ ws, w.interview_id = iid ∧ w.question_id = qid)
    (hc : countKey table iid qid ≤ 1) :
    (ws.foldl upsert_score table).filter (fun r => sameKey r iid qid) =
      [ws.getLast hne] := by
  induction ws generalizing table with
  | nil => exact absurd rfl hne
  | cons w rest ih =>
      cases rest with
      | nil =>
          simp only [List.foldl_cons, List.foldl_nil]
          have h := upsert_filter_eq w iid qid (hkeys w (by simp)).1
            (hkeys w (by simp)).2 table hc
          simpa using h
      | cons w2 rest2 =>
          rw [List.foldl_cons]
          have h1 := (hkeys w (by simp)).1
          have h2 := (hkeys w (by simp)).2
          have hstep := upsert_filter_eq w iid qid h1 h2 table hc
          have hc2 : countKey (upsert_score table w) iid qid ≤ 1 := by
            rw [countKey, hstep]
            simp
          have hkeys2 : ∀ x ∈ w2 :: rest2, x.interview_id = iid ∧
              x.question_id = qid := by
            intro x hx
            exact hkeys x (List.mem_cons_of_mem w hx)
          have hrec := ih (upsert_score table w) (List.cons_ne_nil w2 rest2) hkeys2 hc2
          rw [hrec]
          rw [List.getLast_cons (List.cons_ne_nil w2 rest2)]

/-- C2 witness: two upsert writes for key ("i", 1) on an empty table leave
exactly the second write's row. -/
theorem upsert_rescoring_single_row_witness :
    ([({ interview_id := "i", question_id := 1, technical_score := 10,
         communication_score := 20, completeness_score := 30,
         overall_centi := 1500, ai_feedback := "a", llm_raw := "r1" } : ScoreRow),
      ({ interview_id := "i", question_id := 1, technical_score := 90,
         communication_score := 80, completeness_score := 70,
         overall_centi := 8500, ai_feedback := "b", llm_raw := "r2" } : ScoreRow)
     ].foldl upsert_score []).filter (fun r => sameKey r "i" 1) =
      [{ interview_id := "i", question_id := 1, technical_score := 90,
         communication_score := 80, completeness_score := 70,
         overall_centi := 8500, ai_feedback := "b", llm_raw := "r2" }] := by
  have h := upsert_rescoring_single_row [] "i" 1
    [{ interview_id := "i", question_id := 1, technical_score := 10,
       communication_score := 20, completeness_score := 30,
       overall_centi := 1500, ai_feedback := "a", llm_raw := "r1" },
     { interview_id := "i", question_id := 1, technical_score := 90,
       communication_score := 80, completeness_score := 70,
       overall_centi := 8500, ai_feedback := "b", llm_raw := "r2" }]
    (by decide) (by decide) (by decide)
  simpa using h

/-! ## Theorems: response parsing (C4, C9) -/

/-- C4 counterexample: when no strategy can parse the model output (`parse`
fails on every string, the regex finds no blob, and the NDJSON stage already
yielded no body), `_llm_json` returns `{"summary": raw}` — an object with NO
`technical`, `communication` or `completeness` field at all, not the
neutral-default 50/50/50 object the claim describes. -/
theorem llm_json_missing_subscores_counterexample :
    (jGet (objFields
        (llm_json_ollama (fun _ => none) (fun _ => none) "garbage" none).1)
      "technical").isSome = false ∧
    (jGet (objFields
        (llm_json_ollama (fun _ => none) (fun _ => none) "garbage" none).1)
      "communication").isSome = false ∧
    (jGet (objFields
        (llm_json_ollama (fun _ => none) (fun _ => none) "garbage" none).1)
      "completeness").isSome = false ∧
    (jGet (objFields
        (llm_json_ollama (fun _ => none) (fun _ => none) "garbage" none).1)
      "summary").isSome = true :=
  ⟨rfl, rfl, rfl, rfl⟩

/-- C4 (amended): unparsable model output degrades differently on the two
parsing paths.  In `grade_transcript_with_llm` (`backend/score_utils.py`) a
failed `json.loads` of the extracted response yields the full neutral-default
object — all three sub-scores present and integer-typed at 50, with feedback
stating the output could not be parsed.  In `_llm_json`
(`backend/tasks/score_interview.py`) unparsable output (no NDJSON body, or a
string body that neither parses nor contains an extractable blob) yields only
`{"summary": ...}` with no sub-score fields; downstream `_safe_int` coercion
is what turns the missing fields into 0. -/
theorem parse_failure_fallbacks (parse : String → Option PyJson)
    (extract : String → Option String) (resp raw s : String)
    (hparse : parse resp = none) (hs : parse s = none)
    (hex : extract s = none) :
    grade_parse_resp parse resp = neutralGrade ∧
    llm_json_ollama parse extract raw none =
      (.obj [("summary", .str raw)], raw) ∧
    llm_json_ollama parse extract raw (some (.str s)) =
      (.obj [("summary", .str s)], s) := by
  refine ⟨?_, rfl, ?_⟩
  · simp [grade_parse_resp, hparse]
  · simp [llm_json_ollama, hs, hex]

/-- C4 witness: both fallbacks at concrete unparsable inputs. -/
theorem parse_failure_fallbacks_witness :
    grade_parse_resp (fun _ => none) "x" = neutralGrade ∧
    llm_json_ollama (fun _ => none) (fun _ => none) "garbage" none =
      (.obj [("summary", .str "garbage")], "garbage") ∧
    llm_json_ollama (fun _ => none) (fun _ => none) "garbage"
        (some (.str "blob")) = (.obj [("summary", .str "blob")], "blob") :=
  parse_failure_fallbacks (fun _ => none) (fun _ => none) "x" "garbage" "blob"
    rfl rfl rfl

/-- C9 counterexample: the `score_question` extraction path applies no
clamping: a parsed feedback object with `technical = 150` is stored as 150,
outside [0, 100]. -/
theorem score_question_no_clamp_counterexample :
    (score_question_voice_scores
        [("technical", .num 150), ("communication", .num 70),
         ("completeness", .num 60)]).2.1 = 150 ∧
    ¬((150 : Int) ≤ 100) :=
  ⟨rfl, by decide⟩

/-- Helper: every sub-score `grade_transcript_with_llm` returns lies in
[0, 100] (the clamped path as well as both 50/50/50 fallbacks). -/
theorem grade_parse_resp_bounds (parse : String → Option PyJson)
    (resp : String) :
    0 ≤ (grade_parse_resp parse resp).technical ∧
    (grade_parse_resp parse resp).technical ≤ 100 ∧
    0 ≤ (grade_parse_resp parse resp).communication ∧
    (grade_parse_resp parse resp).communication ≤ 100 ∧
    0 ≤ (grade_parse_resp parse resp).completeness ∧
    (grade_parse_resp parse resp).completeness ≤ 100 := by
  unfold grade_parse_resp
  rcases hp : parse resp with _ | v
  · simp [neutralGrade]
  · cases v with
    | obj fields =>
        dsimp only
        rcases h1 : getIntField fields "technical" with _ | t <;>
          rcases h2 : getIntField fields "communication" with _ | c <;>
            rcases h3 : getIntField fields "completeness" with _ | p <;>
              simp [llmFailedGrade, clamp100, max_def, min_def] <;>
                split_ifs <;> omega
    | null => simp [llmFailedGrade]
    | bool b => simp [llmFailedGrade]
    | num n => simp [llmFailedGrade]
    | str s2 => simp [llmFailedGrade]
    | arr l => simp [llmFailedGrade]

/-- C9 (amended): in `grade_transcript_with_llm` every returned sub-score is
an integer in [0, 100] (clamped when extraction succeeds; both failure
fallbacks use 50); in `score_question`, fields are coerced by `_safe_int`,
where a missing field yields the call-site default and a non-numeric value
the default as well — but no clamping is applied there (see the
counterexample). -/
theorem score_coercion_properties (parse : String → Option PyJson)
    (resp : String) (d : Int) (j : PyJson) (hnonnum : pyInt j = none) :
    (0 ≤ (grade_parse_resp parse resp).technical ∧
     (grade_parse_resp parse resp).technical ≤ 100 ∧
     0 ≤ (grade_parse_resp parse resp).communication ∧
     (grade_parse_resp parse resp).communication ≤ 100 ∧
     0 ≤ (grade_parse_resp parse resp).completeness ∧
     (grade_parse_resp parse resp).completeness ≤ 100) ∧
    _safe_int none d = d ∧
    _safe_int (some j) d = d := by
  refine ⟨grade_parse_resp_bounds parse resp, rfl, ?_⟩
  simp [_safe_int, hnonnum]

/-- C9 witness: bounds and defaults at concrete inputs (`int("abc")`
raises, so `_safe_int` returns the default 7). -/
theorem score_coercion_properties_witness :
    pyInt (.str "abc") = none ∧
    ((0 ≤ (grade_parse_resp (fun _ => none) "x").technical ∧
      (grade_parse_resp (fun _ => none) "x").technical ≤ 100 ∧
      0 ≤ (grade_parse_resp (fun _ => none) "x").communication ∧
      (grade_parse_resp (fun _ => none) "x").communication ≤ 100 ∧
      0 ≤ (grade_parse_resp (fun _ => none) "x").completeness ∧
      (grade_parse_resp (fun _ => none) "x").completeness ≤ 100) ∧
     _safe_int none 7 = 7 ∧
     _safe_int (some (.str "abc")) 7 = 7) :=
  ⟨rfl, score_coercion_properties (fun _ => none) "x" 7 (.str "abc") rfl⟩
